import Mathlib

/-!
# Chess Hub token API: validators, wallet pipeline and route handlers

A shallow embedding of `src/config/web3.js` and of the API handlers of
`src/routes/play.js`.

* JavaScript strings are sequences of UTF-16 code units, so `length` counts
  code units and `startsWith` compares code units.
* JavaScript numbers are IEEE doubles.  The code only ever compares a number
  with a constant (`> 0`, `=== 42`), so a number is modelled by its exact
  value: NaN, one of the two infinities, or a rational (`-0` and `0` are the
  same rational, as they are for `>` and `===`).
* Values are the data values a URL parameter or a parsed JSON body can
  deliver, together with `undefined` (an absent field) and BigInt.
* `async` functions are run sequentially; a thrown value (a rejected promise)
  is the `error` of an `Except`.
-/

namespace ChessHub

/-! ## JavaScript values -/

/-- One UTF-16 code unit. -/
abbrev CodeUnit := Fin 65536

/-- A JavaScript string: its sequence of UTF-16 code units. -/
abbrev JSString := List CodeUnit

/-- UTF-16 encoding of one Unicode scalar value. -/
def utf16 (c : Char) : List CodeUnit :=
  if c.toNat < 65536 then [Fin.ofNat c.toNat]
  else [Fin.ofNat (55296 + (c.toNat - 65536) / 1024), Fin.ofNat (56320 + (c.toNat - 65536) % 1024)]

/-- UTF-16 encoding of a list of characters. -/
def utf16s : List Char → JSString
  | [] => []
  | c :: cs => utf16 c ++ utf16s cs

/-- The JavaScript string written as the literal `s`. -/
def js (s : String) : JSString := utf16s s.toList

/-- A JavaScript number, by exact value. -/
inductive JSNumber where
  | nan
  | posInf
  | negInf
  | finite (q : ℚ)
  deriving DecidableEq

/-- JavaScript data values. -/
inductive JSValue where
  | undefined
  | null
  | boolean (b : Bool)
  | number (n : JSNumber)
  | bigint (i : Int)
  | string (s : JSString)
  | array (xs : List JSValue)
  | object (props : List (String × JSValue))

/-- A thrown JavaScript error value. -/
structure JSError where
  name : String
  message : String
  deriving DecidableEq

/-- The `TypeError` the engine throws for a property read on `undefined` or `null`. -/
def cannotReadProperty (prop : String) : JSError :=
  ⟨"TypeError", "Cannot read properties of undefined or null: " ++ prop⟩

/-- The `TypeError` the engine throws for a call of a non-function. -/
def notAFunction (prop : String) : JSError :=
  ⟨"TypeError", prop ++ " is not a function"⟩

/-- The result of `typeof v`. -/
def typeOf : JSValue → String
  | .undefined => "undefined"
  | .null => "object"
  | .boolean _ => "boolean"
  | .number _ => "number"
  | .bigint _ => "bigint"
  | .string _ => "string"
  | .array _ => "object"
  | .object _ => "object"

/-- The comparison `n > 0` on numbers. -/
def JSNumber.gtZero : JSNumber → Bool
  | .nan => false
  | .posInf => true
  | .negInf => false
  | .finite q => decide (0 < q)

/-- The comparison `v > 0` for a value already known to be a number; other
values are not reached by the code (`typeof` guards the comparison). -/
def gtZero : JSValue → Bool
  | .number n => n.gtZero
  | _ => false

/-- The strict equality `v === 42`. -/
def strictEq42 : JSValue → Bool
  | .number (.finite q) => decide (q = 42)
  | _ => false

/-- The property read `v.length`: throws on `undefined` and `null`; the length
in code units of a string; the element count of an array; an own property of
an object; `undefined` on the other primitives, whose prototypes have no
`length`. -/
def getLength : JSValue → Except JSError JSValue
  | .undefined => .error (cannotReadProperty "length")
  | .null => .error (cannotReadProperty "length")
  | .string s => .ok (.number (.finite s.length))
  | .array xs => .ok (.number (.finite xs.length))
  | .object props => .ok ((props.lookup "length").getD .undefined)
  | .boolean _ => .ok .undefined
  | .number _ => .ok .undefined
  | .bigint _ => .ok .undefined

/-- The method `String.prototype.startsWith` on code units. -/
def startsWith (s pre : JSString) : Bool := pre.isPrefixOf s

/-- The method call `v.startsWith('0x')`: the string method on a string; on
every other value the property is absent or is data, and the call throws. -/
def callStartsWith0x : JSValue → Except JSError Bool
  | .string s => .ok (startsWith s (js "0x"))
  | .undefined => .error (cannotReadProperty "startsWith")
  | .null => .error (cannotReadProperty "startsWith")
  | _ => .error (notAFunction "address.startsWith")

/-! ## Validators (`src/config/web3.js`) -/

/-- `isValidAddress(address)`, `web3.js` lines 98-100:
`return address.length === 42 && address.startsWith('0x');` -/
def isValidAddress (address : JSValue) : Except JSError Bool :=
  match getLength address with
  | .error e => .error e
  | .ok len => if strictEq42 len then callStartsWith0x address else .ok false

/-- `isValidValue(value)`, `web3.js` lines 108-110:
`return typeof value === 'number' && value > 0;` -/
def isValidValue (value : JSValue) : Bool :=
  typeOf value == "number" && gtZero value

/-! ## The wallet, the node and the effects of an operation -/

/-- An account of the wallet: `{address, privateKey}`. -/
structure Account where
  address : JSString
  privateKey : JSString
  deriving DecidableEq

/-- The shared `Wallet` object imported from `../config/web3.config`; its
`account` field is `undefined` until a derivation stores one. -/
structure Wallet where
  account : Option Account
  deriving DecidableEq

/-- The object literal `txParams` of `approve`. -/
structure TxParams where
  to_ : JSString
  data : JSValue
  from_ : JSString
  gas : JSValue
  gasPrice : JSValue

/-- The object `signTransaction` resolves to; only `rawTransaction` is read. -/
structure SignedTx where
  rawTransaction : JSValue

/-- The calls an operation makes outside its own body. -/
inductive Call where
  | deterministicWallet (password : JSValue) (seed : Option JSString)
  | newContract
  | toWei (amount : JSString)
  | fromWei (amount : Int)
  | encodeABI (spender : JSValue) (amount : Int)
  | estimateGas (spender : JSValue) (amount : Int) (from_ : JSString)
  | getGasPrice
  | signTransaction (tx : TxParams) (privateKey : JSString)
  | sendSignedTransaction (raw : JSValue)
  | getBalance (address : JSValue)
  | allowance (owner spender : JSValue)

/-- One entry of the call log: the call and, when it threw, what it threw. -/
structure Event where
  call : Call
  failed : Option JSError

/-- What a `console.log` or `console.error` call was given. -/
inductive ConsoleEntry where
  | approved (value spender : JSValue) (owner : JSString)
  | response (body : List (String × JSValue))
  | failure (label : String) (error : JSError)

/-- Everything that outlives one invocation: the shared `Wallet` object, the
state of the ledger node, the log of calls made so far and the console. -/
structure World (N : Type) where
  wallet : Wallet
  node : N
  trace : List Event
  console : List ConsoleEntry

/-- The collaborators `web3.js` imports: the configuration constants, the
wallet deriver, the `web3` library and the node behind it.  A node call reads
and updates the node state; a library call is a function of its arguments.
Each one either returns or throws. -/
structure Env (N : Type) where
  APP_SEED : Option JSString
  contractAddress : JSString
  deterministicWallet : JSValue → Option JSString → Wallet → Except JSError Wallet
  newContract : Except JSError Unit
  builtinToString : JSValue → Except JSError JSString
  toWei : JSString → Except JSError Int
  fromWei : Int → Except JSError JSString
  encodeABI : JSValue → Int → Except JSError JSValue
  estimateGas : JSValue → Int → JSString → N → Except JSError JSValue × N
  getGasPrice : N → Except JSError JSValue × N
  signTransaction : TxParams → JSString → N → Except JSError SignedTx × N
  sendSignedTransaction : JSValue → N → Except JSError JSValue × N
  getBalance : JSValue → N → Except JSError Int × N
  allowance : JSValue → JSValue → N → Except JSError Int × N

/-- A computation that may throw and that reads and updates the world; the
world is kept when it throws. -/
def Eff (N : Type) (α : Type) : Type := World N → Except JSError α × World N

/-- Return a value. -/
def Eff.pure {N α : Type} (a : α) : Eff N α := fun s => (.ok a, s)

/-- Run `m`, then `f` on its value; a throw of `m` skips `f`. -/
def Eff.bind {N α β : Type} (m : Eff N α) (f : α → Eff N β) : Eff N β := fun s =>
  match m s with
  | (.ok a, s1) => f a s1
  | (.error e, s1) => (.error e, s1)

instance {N : Type} : Monad (Eff N) where
  pure := Eff.pure
  bind := Eff.bind

/-- The statement `throw e`. -/
def Eff.throw {N α : Type} (e : JSError) : Eff N α := fun s => (.error e, s)

/-- The statement `try { body } catch (error) { handler(error) }`. -/
def Eff.tryCatch {N α : Type} (body : Eff N α) (handler : JSError → Eff N α) : Eff N α := fun s =>
  match body s with
  | (.ok a, s1) => (.ok a, s1)
  | (.error e, s1) => handler e s1

/-- A library call: log it with its outcome, then return or throw. -/
def libCall {N α : Type} (c : Call) (r : Except JSError α) : Eff N α := fun s =>
  match r with
  | .ok a => (.ok a, { s with trace := s.trace ++ [⟨c, none⟩] })
  | .error e => (.error e, { s with trace := s.trace ++ [⟨c, some e⟩] })

/-- A node call: run it on the node state, log it with its outcome, then
return or throw. -/
def nodeCall {N α : Type} (c : Call) (f : N → Except JSError α × N) : Eff N α := fun s =>
  match f s.node with
  | (.ok a, n) => (.ok a, { s with node := n, trace := s.trace ++ [⟨c, none⟩] })
  | (.error e, n) => (.error e, { s with node := n, trace := s.trace ++ [⟨c, some e⟩] })

/-- The call `Wallet.deterministicWallet(password, seed)`: it works on the
shared `Wallet` object and its return value is not used. -/
def callDeterministicWallet {N : Type} (env : Env N) (password : JSValue)
    (seed : Option JSString) : Eff N Unit := fun s =>
  match env.deterministicWallet password seed s.wallet with
  | .ok w =>
    (.ok (), { wallet := w, node := s.node, console := s.console,
               trace := s.trace ++ [⟨.deterministicWallet password seed, none⟩] })
  | .error e =>
    (.error e, { s with trace := s.trace ++ [⟨.deterministicWallet password seed, some e⟩] })

/-- The read `Wallet.account`, followed by a property read on it, which throws
when `Wallet.account` is `undefined`. -/
def readAccount {N : Type} (prop : String) : Eff N Account := fun s =>
  match s.wallet.account with
  | some a => (.ok a, s)
  | none => (.error (cannotReadProperty prop), s)

/-- The method call `value.toString()`: throws on `undefined` and `null`, is
the identity on a string, and is the built-in conversion otherwise. -/
def valueToString {N : Type} (env : Env N) : JSValue → Except JSError JSString
  | .undefined => .error (cannotReadProperty "toString")
  | .null => .error (cannotReadProperty "toString")
  | .string s => .ok s
  | v => env.builtinToString v

/-- Evaluate an expression of the language itself, which logs nothing. -/
def evalPure {N α : Type} (r : Except JSError α) : Eff N α := fun s => (r, s)

/-- The call `console.log(entry)` or `console.error(entry)`. -/
def consoleLog {N : Type} (entry : ConsoleEntry) : Eff N Unit := fun s =>
  (.ok (), { s with console := s.console ++ [entry] })

/-! ## Operations (`src/config/web3.js`) -/

/-- `balanceOf(address)`, `web3.js` lines 11-19: the balance query, then the
conversion to the display unit, inside `try { } catch (error) { throw error; }`. -/
def balanceOf {N : Type} (env : Env N) (address : JSValue) : Eff N JSString :=
  Eff.tryCatch
    (do
      let balance ← nodeCall (.getBalance address) (env.getBalance address)
      let balanceInEther ← libCall (.fromWei balance) (env.fromWei balance)
      return balanceInEther)
    (fun error => Eff.throw error)

/-- `allowanceOf(owner, spender)`, `web3.js` lines 29-38: the contract
instance, the `allowance(owner, spender)` call, then the conversion. -/
def allowanceOf {N : Type} (env : Env N) (owner spender : JSValue) : Eff N JSString :=
  Eff.tryCatch
    (do
      libCall .newContract env.newContract
      let allowance ← nodeCall (.allowance owner spender) (env.allowance owner spender)
      let allowanceInEther ← libCall (.fromWei allowance) (env.fromWei allowance)
      return allowanceInEther)
    (fun error => Eff.throw error)

/-- `approve(spender, value, password)`, `web3.js` lines 54-90, statement by
statement; the two `contract.methods.approve(spender, valueInWei)` uses are
the ABI encoding and the gas estimate. -/
def approve {N : Type} (env : Env N) (spender value password : JSValue) : Eff N JSValue :=
  Eff.tryCatch
    (do
      callDeterministicWallet env password env.APP_SEED
      let owner ← (fun a => a.address) <$> readAccount "address"
      let privateKey ← (fun a => a.privateKey) <$> readAccount "privateKey"
      libCall .newContract env.newContract
      let valueString ← evalPure (valueToString env value)
      let valueInWei ← libCall (.toWei valueString) (env.toWei valueString)
      let txData ← libCall (.encodeABI spender valueInWei) (env.encodeABI spender valueInWei)
      let gas ← nodeCall (.estimateGas spender valueInWei owner)
        (env.estimateGas spender valueInWei owner)
      let gasPrice ← nodeCall .getGasPrice env.getGasPrice
      let txParams : TxParams :=
        { to_ := env.contractAddress, data := txData, from_ := owner, gas := gas,
          gasPrice := gasPrice }
      let signedTx ← nodeCall (.signTransaction txParams privateKey)
        (env.signTransaction txParams privateKey)
      let txReceipt ← nodeCall (.sendSignedTransaction signedTx.rawTransaction)
        (env.sendSignedTransaction signedTx.rawTransaction)
      consoleLog (.approved value spender owner)
      return txReceipt)
    (fun error => Eff.throw error)

/-! ## API handlers (`src/routes/play.js`) -/

/-- What a handler sends: `res.status(status).json(body)`. -/
structure Response where
  status : Nat
  body : List (String × JSValue)

/-- One binding of the destructuring `const { spender, value, password } = req.body`:
it throws when `req.body` is `undefined` or `null` and gives `undefined` for a
field that is absent. -/
def destructure (body : JSValue) (field : String) : Except JSError JSValue :=
  match body with
  | .undefined => .error (cannotReadProperty field)
  | .null => .error (cannotReadProperty field)
  | .object props => .ok ((props.lookup field).getD .undefined)
  | _ => .ok .undefined

/-- The body `{error: msg}`. -/
def errorBody (msg : String) : List (String × JSValue) := [("error", .string (js msg))]

/-- `router.get('/GetAllowance/:owner/:spender', ...)`, `play.js` lines 58-98; a
throw outside the `try` rejects the handler and nothing is sent. -/
def GetAllowance {N : Type} (env : Env N) (owner spender : JSValue) : Eff N Response := do
  let ownerValid ← evalPure (isValidAddress owner)
  if !ownerValid then
    return ⟨400, errorBody "Invalid owner address"⟩
  else do
    let spenderValid ← evalPure (isValidAddress spender)
    if !spenderValid then
      return ⟨400, errorBody "Invalid spender address"⟩
    else
      Eff.tryCatch
        (do
          let allowance ← allowanceOf env owner spender
          let response : List (String × JSValue) :=
            [("owner", owner), ("spender", spender), ("allowance", .string allowance),
             ("message", .string (js "Allowance fetched successfully"))]
          consoleLog (.response response)
          return ⟨200, response⟩)
        (fun error => do
          consoleLog (.failure "Error fetching allowance:" error)
          return ⟨500, errorBody "Error fetching allowance"⟩)

/-- `router.get('/GetBalance/:address', ...)`, `play.js` lines 130-154. -/
def GetBalance {N : Type} (env : Env N) (address : JSValue) : Eff N Response := do
  let addressValid ← evalPure (isValidAddress address)
  if !addressValid then
    return ⟨400, errorBody "Invalid address"⟩
  else
    Eff.tryCatch
      (do
        let balance ← balanceOf env address
        let response : List (String × JSValue) :=
          [("address", address), ("balance", .string balance),
           ("message", .string (js "Balance fetched successfully"))]
        consoleLog (.response response)
        return ⟨200, response⟩)
      (fun error => do
        consoleLog (.failure "Error fetching Balance:" error)
        return ⟨500, errorBody "Error fetching Balance"⟩)

/-- `router.post('/SetApprove', ...)`, `play.js` lines 188-225, for the request
body `body`. -/
def SetApprove {N : Type} (env : Env N) (body : JSValue) : Eff N Response := do
  let spender ← evalPure (destructure body "spender")
  let value ← evalPure (destructure body "value")
  let password ← evalPure (destructure body "password")
  let spenderValid ← evalPure (isValidAddress spender)
  if !spenderValid then
    return ⟨400, errorBody "Invalid spender address"⟩
  else
    if !isValidValue value then
      return ⟨400, errorBody "Invalid value"⟩
    else
      Eff.tryCatch
        (do
          let _ ← approve env spender value password
          let response : List (String × JSValue) :=
            [("spender", spender), ("value", value),
             ("message", .string (js "Approval success"))]
          consoleLog (.response response)
          return ⟨200, response⟩)
        (fun error => do
          consoleLog (.failure "Error approving:" error)
          return ⟨500, errorBody "Error approving"⟩)

/-- The JSON body `{spender, value, password}` of a SetApprove request. -/
def approveBody (spender value password : JSValue) : JSValue :=
  .object [("spender", spender), ("value", value), ("password", password)]

/-! ## Unit converter -/

/-- The number of base units in one display unit: `10^18`. -/
def weiPerEther : Nat := 10 ^ 18

/-- The code unit of the decimal point. -/
def dot : CodeUnit := 46

/-- The code unit of the decimal digit `d`. -/
def digitUnit (d : Nat) : CodeUnit := Fin.ofNat (48 + d)

/-- The decimal digit a code unit stands for, if it is one of `0`..`9`. -/
def unitDigit (u : CodeUnit) : Option Nat :=
  if 48 ≤ u.val ∧ u.val ≤ 57 then some (u.val - 48) else none

/-- Read a string made of decimal digits only. -/
def parseDigits : JSString → Option (List Nat)
  | [] => some []
  | u :: us =>
    match unitDigit u, parseDigits us with
    | some d, some ds => some (d :: ds)
    | _, _ => none

/-- The number written by a list of decimal digits, most significant first. -/
def valueOf (ds : List Nat) : Nat := ds.foldl (fun acc d => 10 * acc + d) 0

/-- Split a string at its first decimal point, if it has one. -/
def splitAtDot : JSString → JSString × Option JSString
  | [] => ([], none)
  | u :: us =>
    if u = dot then ([], some us)
    else
      match splitAtDot us with
      | (w, f) => (u :: w, f)

/-- The decimal digits of `n`, most significant first, with `fuel` bounding
the number of digits. -/
def decDigitsFuel : Nat → Nat → List Nat
  | 0, _ => []
  | fuel + 1, n => if n < 10 then [n] else decDigitsFuel fuel (n / 10) ++ [n % 10]

/-- The decimal digits of `n`, most significant first; `[0]` for zero. -/
def decDigits (n : Nat) : List Nat := decDigitsFuel (n + 1) n

/-- Pad a digit list with zeros on the left up to `k` digits. -/
def padLeft (k : Nat) (ds : List Nat) : List Nat := List.replicate (k - ds.length) 0 ++ ds

/-- Drop the zeros at the end of a digit list. -/
def stripTrailingZeros (ds : List Nat) : List Nat :=
  (ds.reverse.dropWhile (fun d => d == 0)).reverse

/-- Write a digit list as a string. -/
def renderDigits (ds : List Nat) : JSString := ds.map digitUnit

/-- The error of the converter. -/
def conversionError (msg : String) : JSError := ⟨"ConversionError", msg⟩

/-- Modelled from the spec: the Unit Converter's `toBase`, which `approve`
reaches as `web3.utils.toWei(s, 'ether')`, a library function that is not
among the sources.  §4.1 and §6: it maps a decimal string, digits with an
optional point followed by at most 18 digits, to the exact integer number of
base units (18 decimal places), and fails with `ConversionError` on a
malformed string or a negative value. -/
def toBase (x : JSString) : Except JSError Int :=
  match splitAtDot x with
  | (w, none) =>
    match parseDigits w with
    | some ws =>
      if ws = [] then .error (conversionError "malformed decimal string")
      else .ok ((valueOf ws * weiPerEther : Nat) : Int)
    | none => .error (conversionError "malformed decimal string")
  | (w, some f) =>
    match parseDigits w, parseDigits f with
    | some ws, some fs =>
      if ws = [] ∨ fs = [] then .error (conversionError "malformed decimal string")
      else if 18 < fs.length then .error (conversionError "too many fractional digits")
      else .ok ((valueOf ws * weiPerEther + valueOf fs * 10 ^ (18 - fs.length) : Nat) : Int)
    | _, _ => .error (conversionError "malformed decimal string")

/-- Modelled from the spec: the Unit Converter's `toDisplay`, which
`balanceOf` and `allowanceOf` reach as `web3.utils.fromWei(n, 'ether')`, a
library function that is not among the sources.  §4.1, §6 and §8: it writes a
number of base units exactly as a base-10 decimal string with up to 18
fractional digits (`1000 * 10^18` is written `1000`, `15 * 10^17` is written
`1.5`), and fails with `ConversionError` on a negative value. -/
def toDisplay (n : Int) : Except JSError JSString :=
  if n < 0 then .error (conversionError "negative value")
  else
    let whole := decDigits (n.toNat / weiPerEther)
    let fraction := n.toNat % weiPerEther
    if fraction = 0 then .ok (renderDigits whole)
    else .ok (renderDigits whole ++
      dot :: renderDigits (stripTrailingZeros (padLeft 18 (decDigits fraction))))

/-- The whole part of a canonical decimal string: digits, without a
superfluous leading zero. -/
def canonicalWhole (w : JSString) : Bool :=
  match parseDigits w with
  | some ds => decide (ds ≠ [] ∧ (ds = [0] ∨ ds.head? ≠ some 0))
  | none => false

/-- The fraction of a canonical decimal string: one to 18 digits, the last of
which is not zero. -/
def canonicalFraction (f : JSString) : Bool :=
  match parseDigits f with
  | some ds => decide (ds ≠ [] ∧ ds.length ≤ 18 ∧ ds.getLast? ≠ some 0)
  | none => false

/-- A decimal string in canonical form. -/
def isCanonicalDecimal (x : JSString) : Bool :=
  match splitAtDot x with
  | (w, none) => canonicalWhole w
  | (w, some f) => canonicalWhole w && canonicalFraction f

/-- The number of digits after the decimal point of a string. -/
def fractionalDigits (x : JSString) : Nat :=
  match splitAtDot x with
  | (_, none) => 0
  | (_, some f) => f.length

/-! ## Wallet deriver -/

/-- Modelled from the spec: `Wallet.deterministicWallet(password, seed)` of
`config/web3.config`, which is not among the sources.  §4.3: the private key
is a hash `kdf` of the combination of both secrets and the address is derived
from the private key by the ledger's rule `addressOf`; `approve` finds the
result in the `account` field of the shared `Wallet` object. -/
def deterministicWallet (kdf : JSString → JSString → JSString)
    (addressOf : JSString → JSString) (password seed : JSString) (_before : Wallet) : Wallet :=
  { account := some { address := addressOf (kdf password seed), privateKey := kdf password seed } }

/-- Modelled from the spec: `derive(password, seed) -> Account` of §4.3, as
`approve` performs it: the call of `Wallet.deterministicWallet`, which is not
among the sources, followed by the read of `Wallet.account`. -/
def derive (kdf : JSString → JSString → JSString) (addressOf : JSString → JSString)
    (password seed : JSString) (before : Wallet) : Option Account :=
  (deterministicWallet kdf addressOf password seed before).account

/-! ## A test fixture: a node that accepts everything -/

/-- A stand-in for the hash of the deriver: seed, a separator, password. -/
def fixtureKdf (password seed : JSString) : JSString := seed ++ js ":" ++ password

/-- A stand-in for the address rule. -/
def fixtureAddressOf (key : JSString) : JSString := js "0x" ++ key

/-- The error of the fixture for what it does not support. -/
def fixtureError (msg : String) : JSError := ⟨"FixtureError", msg⟩

/-- `toString()` of a number, for the non-negative integers. -/
def fixtureToString : JSValue → Except JSError JSString
  | .number (.finite q) =>
    if q.den = 1 ∧ 0 ≤ q.num then .ok (renderDigits (decDigits q.num.toNat))
    else .error (fixtureError "number")
  | _ => .error (fixtureError "number")

/-- A fixture: seed `seed`, a deriver after §4.3, the unit converter of §4.1,
an encoder that rejects a malformed spender, and a node whose state counts
the requests it served and that accepts every request. -/
def fixtureEnv : Env Nat where
  APP_SEED := some (js "seed")
  contractAddress := js "0xToken"
  deterministicWallet := fun password seed w =>
    match password, seed with
    | .string p, some sd => .ok (deterministicWallet fixtureKdf fixtureAddressOf p sd w)
    | _, _ => .error ⟨"DerivationError", "missing secret"⟩
  newContract := .ok ()
  builtinToString := fixtureToString
  toWei := toBase
  fromWei := toDisplay
  encodeABI := fun spender amount =>
    match isValidAddress spender with
    | .ok true => .ok (.array [.string (js "approve"), spender, .bigint amount])
    | _ => .error ⟨"InvalidAddressError", "spender"⟩
  estimateGas := fun _ _ _ n => (.ok (.number (.finite 50000)), n + 1)
  getGasPrice := fun n => (.ok (.number (.finite 7)), n + 1)
  signTransaction := fun tx _ n => (.ok ⟨.array [.string (js "signed"), tx.data]⟩, n)
  sendSignedTransaction := fun raw n => (.ok (.object [("status", .boolean true), ("raw", raw)]), n + 1)
  getBalance := fun _ n => (.ok 900000000000000000000, n + 1)
  allowance := fun _ _ n => (.ok 1000000000000000000000, n + 1)

/-- The world at process start: no account in the wallet, nothing logged. -/
def startWorld : World Nat := { wallet := ⟨none⟩, node := 0, trace := [], console := [] }

/-- The sample address of the API documentation. -/
def sampleAddress : JSString := js "0x06Eb67071a06E676b678F5dd3614D852C129d460"

/-! ## Properties of a run -/

/-- What the claim about failures says of one run: `new` is the list of calls
the run made, `r` its outcome.  A call that failed with `e` is the last call
of the run, and the run fails with `e`. -/
def FailureSurfaces {α : Type} (new : List Event) (r : Except JSError α) : Prop :=
  ∀ (i : Nat) (ev : Event) (e : JSError),
    new[i]? = some ev → ev.failed = some e → i + 1 = new.length ∧ r = .error e

/-- No call of the list failed. -/
def AllOk (new : List Event) : Prop := ∀ ev ∈ new, ev.failed = none

/-- Either no call failed, or exactly the last one did and the run fails with
what that call threw. -/
def FailsLast {α : Type} (new : List Event) (r : Except JSError α) : Prop :=
  AllOk new ∨ ∃ pre c e, new = pre ++ [⟨c, some e⟩] ∧ AllOk pre ∧ r = .error e

/-- Every run of `m` extends the call log by calls of which at most the
last failed, and then `m` fails with what that call threw. -/
def Eff.Surfaces {N α : Type} (m : Eff N α) : Prop :=
  ∀ s, ∃ new, (m s).2.trace = s.trace ++ new ∧ FailsLast new (m s).1

/-- Every run of `m` logs exactly the call `c`. -/
def Eff.Logs {N α : Type} (c : Call) (m : Eff N α) : Prop :=
  ∀ s, ∃ o, (m s).2.trace = s.trace ++ [⟨c, o⟩]

/-- No run of `m` touches the wallet or the console. -/
def Eff.Quiet {N α : Type} (m : Eff N α) : Prop :=
  ∀ s, (m s).2.wallet = s.wallet ∧ (m s).2.console = s.console

/-- No run of `m` touches the wallet, and a run writes nothing to the console
or just `entry`. -/
def Eff.LogsAtMost {N α : Type} (entry : ConsoleEntry) (m : Eff N α) : Prop :=
  ∀ s, (m s).2.wallet = s.wallet ∧
    ((m s).2.console = s.console ∨ (m s).2.console = s.console ++ [entry])

/-- A fixture whose node is unreachable when asked for the gas price. -/
def gasPriceDownEnv : Env Nat :=
  { fixtureEnv with getGasPrice := fun n => (.error ⟨"NetworkError", "node unreachable"⟩, n) }

/-! ## Unfolding lemmas for the effect model -/

section EffLemmas
variable {N α β : Type}

@[simp] theorem Eff.pure_run (a : α) (s : World N) :
    (Pure.pure a : Eff N α) s = (.ok a, s) := by
  show Eff.pure a s = _
  unfold Eff.pure
  exact rfl

@[simp] theorem Eff.bind_run (m : Eff N α) (f : α → Eff N β) (s : World N) :
    (m >>= f) s =
      match m s with
      | (.ok a, s1) => f a s1
      | (.error e, s1) => (.error e, s1) := by
  show Eff.bind m f s = _
  unfold Eff.bind
  exact rfl

@[simp] theorem Eff.map_run (g : α → β) (m : Eff N α) (s : World N) :
    (g <$> m) s =
      match m s with
      | (.ok a, s1) => (.ok (g a), s1)
      | (.error e, s1) => (.error e, s1) := by
  show Eff.bind m (fun a => Eff.pure (g a)) s = _
  unfold Eff.bind
  cases h : m s with
  | mk r s1 => cases r <;> rfl

@[simp] theorem Eff.throw_run (e : JSError) (s : World N) :
    (Eff.throw e : Eff N α) s = (.error e, s) := by
  unfold Eff.throw
  exact rfl

@[simp] theorem evalPure_run (r : Except JSError α) (s : World N) :
    (evalPure r : Eff N α) s = (r, s) := by
  unfold evalPure
  exact rfl

@[simp] theorem consoleLog_run (entry : ConsoleEntry) (s : World N) :
    (consoleLog entry : Eff N Unit) s = (.ok (), { s with console := s.console ++ [entry] }) := by
  unfold consoleLog
  exact rfl

/-- A `try` whose handler rethrows what it caught is its body. -/
@[simp] theorem Eff.tryCatch_rethrow (body : Eff N α) :
    Eff.tryCatch body (fun error => Eff.throw error) = body := by
  funext s
  unfold Eff.tryCatch
  cases h : body s with
  | mk r s1 => cases r <;> rfl

end EffLemmas

/-! ## The validators -/

theorem js_0x : js "0x" = [48, 120] := rfl

theorem isValidAddress_string (s : JSString) :
    isValidAddress (.string s) = .ok (decide (s.length = 42) && startsWith s (js "0x")) := by
  unfold isValidAddress getLength strictEq42 callStartsWith0x
  by_cases h : s.length = 42
  · simp [h]
  · have h' : ¬ ((s.length : ℚ) = 42) := by exact_mod_cast h
    simp [h, h']

theorem isValidAddress_string_spec (s : JSString) :
    ∃ b : Bool, isValidAddress (.string s) = .ok b ∧
      (b = true ↔ s.length = 42 ∧ js "0x" <+: s) :=
  ⟨_, isValidAddress_string s, by simp [startsWith]⟩

/-- C1: on a string, `isValidAddress` returns a boolean, and that boolean is
`true` exactly when the string has 42 code units and starts with `0x`; it is
true for the sample address and false for `0x123` and for the empty string. -/
theorem isValidAddress_string_iff :
    (∀ s : JSString, ∃ b : Bool, isValidAddress (.string s) = .ok b ∧
      (b = true ↔ s.length = 42 ∧ js "0x" <+: s)) ∧
    isValidAddress (.string (js "0x06Eb67071a06E676b678F5dd3614D852C129d460")) = .ok true ∧
    isValidAddress (.string (js "0x123")) = .ok false ∧
    isValidAddress (.string (js "")) = .ok false := by
  exact ⟨isValidAddress_string_spec, rfl, rfl, rfl⟩

/-- C2: `isValidValue` is `true` exactly on the numbers that are greater than
zero (positive infinity or a positive finite value); it is true for 1000 and
false for 0, for -5 and for the string `1000`. -/
theorem isValidValue_iff_positive_number :
    (∀ v : JSValue, isValidValue v = true ↔
      ∃ n : JSNumber, v = .number n ∧ (n = .posInf ∨ ∃ q : ℚ, n = .finite q ∧ 0 < q)) ∧
    isValidValue (.number (.finite 1000)) = true ∧
    isValidValue (.number (.finite 0)) = false ∧
    isValidValue (.number (.finite (-5))) = false ∧
    isValidValue (.string (js "1000")) = false := by
  refine ⟨fun v => ?_, by decide, by decide, by decide, by decide⟩
  cases v with
  | number n =>
    cases n <;> simp [isValidValue, typeOf, gtZero, JSNumber.gtZero]
  | _ => simp [isValidValue, typeOf, gtZero]

/-! ## The handlers gate their input -/

theorem destructure_approveBody (spender value password : JSValue) :
    destructure (approveBody spender value password) "spender" = .ok spender ∧
    destructure (approveBody spender value password) "value" = .ok value ∧
    destructure (approveBody spender value password) "password" = .ok password := by
  refine ⟨rfl, ?_, ?_⟩
  · simp [destructure, approveBody, List.lookup]
  · simp [destructure, approveBody, List.lookup]

theorem SetApprove_invalid_spender {N : Type} (env : Env N) (s : World N)
    (spender : JSString) (value password : JSValue)
    (h : isValidAddress (.string spender) = .ok false) :
    SetApprove env (approveBody (.string spender) value password) s =
      (.ok ⟨400, errorBody "Invalid spender address"⟩, s) := by
  obtain ⟨h1, h2, h3⟩ := destructure_approveBody (.string spender) value password
  simp [SetApprove, h1, h2, h3, h]

theorem SetApprove_invalid_value {N : Type} (env : Env N) (s : World N)
    (spender : JSString) (value password : JSValue)
    (h : isValidAddress (.string spender) = .ok true) (hv : isValidValue value = false) :
    SetApprove env (approveBody (.string spender) value password) s =
      (.ok ⟨400, errorBody "Invalid value"⟩, s) := by
  obtain ⟨h1, h2, h3⟩ := destructure_approveBody (.string spender) value password
  simp [SetApprove, h1, h2, h3, h, hv]

/-! ## Runs of the operations -/

section Failures
variable {N α : Type}

@[simp] theorem libCall_run (c : Call) (r : Except JSError α) (s : World N) :
    (libCall c r : Eff N α) s =
      match r with
      | .ok a => (.ok a, { s with trace := s.trace ++ [⟨c, none⟩] })
      | .error e => (.error e, { s with trace := s.trace ++ [⟨c, some e⟩] }) := by
  unfold libCall
  exact rfl

@[simp] theorem nodeCall_run (c : Call) (f : N → Except JSError α × N) (s : World N) :
    (nodeCall c f : Eff N α) s =
      match f s.node with
      | (.ok a, n) => (.ok a, { s with node := n, trace := s.trace ++ [⟨c, none⟩] })
      | (.error e, n) => (.error e, { s with node := n, trace := s.trace ++ [⟨c, some e⟩] }) := by
  unfold nodeCall
  exact rfl

theorem failsLast_surfaces {new : List Event} {r : Except JSError α} (h : FailsLast new r) :
    FailureSurfaces new r := by
  intro i ev e hi hf
  rcases h with h | ⟨pre, c, e0, rfl, hpre, rfl⟩
  · have := h ev (List.getElem?_mem hi)
    rw [this] at hf
    cases hf
  · by_cases hlt : i < pre.length
    · rw [List.getElem?_append_left hlt] at hi
      have := hpre ev (List.getElem?_mem hi)
      rw [this] at hf
      cases hf
    · have hge : pre.length ≤ i := Nat.le_of_not_lt hlt
      rw [List.getElem?_append_right hge] at hi
      have hi0 : i - pre.length = 0 := by
        by_contra hne
        obtain ⟨k, hk⟩ := Nat.exists_eq_succ_of_ne_zero hne
        rw [hk] at hi
        simp at hi
      rw [hi0] at hi
      simp at hi
      subst hi
      simp at hf
      subst hf
      refine ⟨?_, rfl⟩
      simp
      omega

theorem surfaces_pure (a : α) : Eff.Surfaces (Pure.pure a : Eff N α) := fun s =>
  ⟨[], by simp, Or.inl (by intro ev h; simp at h)⟩

theorem surfaces_evalPure (r : Except JSError α) : Eff.Surfaces (evalPure r : Eff N α) :=
  fun s => ⟨[], by simp, Or.inl (by intro ev h; simp at h)⟩

theorem surfaces_consoleLog (entry : ConsoleEntry) :
    Eff.Surfaces (consoleLog entry : Eff N Unit) :=
  fun s => ⟨[], by simp, Or.inl (by intro ev h; simp at h)⟩

theorem surfaces_readAccount (prop : String) : Eff.Surfaces (readAccount prop : Eff N Account) := by
  intro s
  refine ⟨[], ?_, Or.inl (by intro ev h; simp at h)⟩
  unfold ChessHub.readAccount
  cases s.wallet.account <;> simp

theorem surfaces_libCall (c : Call) (r : Except JSError α) :
    Eff.Surfaces (libCall c r : Eff N α) := by
  intro s
  cases r with
  | ok a => exact ⟨[⟨c, none⟩], rfl, Or.inl (by intro ev h; simp at h; simp [h])⟩
  | error e => exact ⟨[⟨c, some e⟩], rfl, Or.inr ⟨[], c, e, rfl, by intro ev h; simp at h, rfl⟩⟩

theorem surfaces_nodeCall (c : Call) (f : N → Except JSError α × N) :
    Eff.Surfaces (nodeCall c f : Eff N α) := by
  intro s
  rw [nodeCall_run]
  rcases h : f s.node with ⟨e | a, n⟩
  · exact ⟨[⟨c, some e⟩], rfl, Or.inr ⟨[], c, e, rfl, by intro ev h; simp at h, rfl⟩⟩
  · exact ⟨[⟨c, none⟩], rfl, Or.inl (by intro ev h; simp at h; simp [h])⟩

theorem surfaces_deriver (env : Env N) (password : JSValue)
    (seed : Option JSString) : Eff.Surfaces (callDeterministicWallet env password seed) := by
  intro s
  unfold ChessHub.callDeterministicWallet
  rcases h : env.deterministicWallet password seed s.wallet with e | w
  · exact ⟨[⟨.deterministicWallet password seed, some e⟩], rfl,
      Or.inr ⟨[], _, e, rfl, by intro ev h; simp at h, rfl⟩⟩
  · exact ⟨[⟨.deterministicWallet password seed, none⟩], rfl,
      Or.inl (by intro ev h; simp at h; simp [h])⟩

theorem surfaces_bind {m : Eff N α} {f : α → Eff N β} (hm : Eff.Surfaces m)
    (hf : ∀ a, Eff.Surfaces (f a)) : Eff.Surfaces (m >>= f) := by
  intro s
  obtain ⟨new1, ht1, h1⟩ := hm s
  rw [Eff.bind_run]
  rcases hms : m s with ⟨e | a, s1⟩
  · rw [hms] at ht1 h1
    refine ⟨new1, ht1, ?_⟩
    rcases h1 with h1 | ⟨pre, c, e0, hnew, hpre, he⟩
    · exact Or.inl h1
    · cases he
      exact Or.inr ⟨pre, c, e, hnew, hpre, rfl⟩
  · rw [hms] at ht1 h1
    simp only at ht1 h1 ⊢
    have hok : AllOk new1 := by
      rcases h1 with h1 | ⟨pre, c, e0, hnew, hpre, he⟩
      · exact h1
      · cases he
    obtain ⟨new2, ht2, h2⟩ := hf a s1
    refine ⟨new1 ++ new2, by rw [ht2, ht1, List.append_assoc], ?_⟩
    rcases h2 with h2 | ⟨pre, c, e0, hnew, hpre, he⟩
    · left
      intro ev hev
      rcases List.mem_append.mp hev with h | h
      · exact hok ev h
      · exact h2 ev h
    · right
      refine ⟨new1 ++ pre, c, e0, by rw [hnew, List.append_assoc], ?_, he⟩
      intro ev hev
      rcases List.mem_append.mp hev with h | h
      · exact hok ev h
      · exact hpre ev h

theorem surfaces_map {m : Eff N α} (g : α → β) (hm : Eff.Surfaces m) :
    Eff.Surfaces (g <$> m) :=
  surfaces_bind hm (fun a => surfaces_pure (g a))

theorem balanceOf_surfaces (env : Env N) (address : JSValue) :
    Eff.Surfaces (balanceOf env address) := by
  unfold balanceOf
  rw [Eff.tryCatch_rethrow]
  exact surfaces_bind (surfaces_nodeCall _ _) fun _ => surfaces_bind (surfaces_libCall _ _) fun _ => surfaces_pure _

theorem allowanceOf_surfaces (env : Env N) (owner spender : JSValue) :
    Eff.Surfaces (allowanceOf env owner spender) := by
  unfold allowanceOf
  rw [Eff.tryCatch_rethrow]
  exact surfaces_bind (surfaces_libCall _ _) fun _ => surfaces_bind (surfaces_nodeCall _ _) fun _ =>
    surfaces_bind (surfaces_libCall _ _) fun _ => surfaces_pure _

theorem approve_surfaces (env : Env N) (spender value password : JSValue) :
    Eff.Surfaces (approve env spender value password) := by
  unfold approve
  rw [Eff.tryCatch_rethrow]
  exact surfaces_bind (surfaces_deriver _ _ _) fun _ =>
    surfaces_bind (surfaces_map _ (surfaces_readAccount _)) fun _ =>
    surfaces_bind (surfaces_map _ (surfaces_readAccount _)) fun _ =>
    surfaces_bind (surfaces_libCall _ _) fun _ =>
    surfaces_bind (surfaces_evalPure _) fun _ =>
    surfaces_bind (surfaces_libCall _ _) fun _ =>
    surfaces_bind (surfaces_libCall _ _) fun _ =>
    surfaces_bind (surfaces_nodeCall _ _) fun _ =>
    surfaces_bind (surfaces_nodeCall _ _) fun _ =>
    surfaces_bind (surfaces_nodeCall _ _) fun _ =>
    surfaces_bind (surfaces_nodeCall _ _) fun _ =>
    surfaces_bind (surfaces_consoleLog _) fun _ => surfaces_pure _

/-! ### The first call of a run -/

theorem logs_libCall (c : Call) (r : Except JSError α) : Eff.Logs c (libCall c r : Eff N α) := by
  intro s
  cases r with
  | ok a => exact ⟨none, rfl⟩
  | error e => exact ⟨some e, rfl⟩

theorem logs_nodeCall (c : Call) (f : N → Except JSError α × N) :
    Eff.Logs c (nodeCall c f : Eff N α) := by
  intro s
  rw [nodeCall_run]
  rcases h : f s.node with ⟨e | a, n⟩
  · exact ⟨some e, rfl⟩
  · exact ⟨none, rfl⟩

theorem logs_deriver (env : Env N) (password : JSValue)
    (seed : Option JSString) :
    Eff.Logs (.deterministicWallet password seed) (callDeterministicWallet env password seed) := by
  intro s
  unfold ChessHub.callDeterministicWallet
  rcases h : env.deterministicWallet password seed s.wallet with e | w
  · exact ⟨some e, rfl⟩
  · exact ⟨none, rfl⟩

/-- A run that starts with a logging call has that call first in its log. -/
theorem first_call {β : Type} {c : Call} {m : Eff N α} {f : α → Eff N β} (hm : Eff.Logs c m)
    (hf : ∀ a, Eff.Surfaces (f a)) (s : World N) :
    ∃ o rest, ((m >>= f) s).2.trace = s.trace ++ ⟨c, o⟩ :: rest := by
  obtain ⟨o, ho⟩ := hm s
  rw [Eff.bind_run]
  rcases hms : m s with ⟨e | a, s1⟩
  · rw [hms] at ho
    exact ⟨o, [], ho⟩
  · rw [hms] at ho
    obtain ⟨new, hnew, _⟩ := hf a s1
    refine ⟨o, new, ?_⟩
    simp only at ho ⊢
    rw [hnew, ho, List.append_assoc]
    rfl

theorem balanceOf_first_call (env : Env N) (address : JSValue) (s : World N) :
    ∃ o rest, (balanceOf env address s).2.trace = s.trace ++ ⟨.getBalance address, o⟩ :: rest := by
  unfold balanceOf
  rw [Eff.tryCatch_rethrow]
  exact first_call (logs_nodeCall _ _) (fun _ => surfaces_bind (surfaces_libCall _ _) fun _ => surfaces_pure _) s

theorem allowanceOf_first_call (env : Env N) (owner spender : JSValue) (s : World N) :
    ∃ o rest, (allowanceOf env owner spender s).2.trace = s.trace ++ ⟨.newContract, o⟩ :: rest := by
  unfold allowanceOf
  rw [Eff.tryCatch_rethrow]
  exact first_call (logs_libCall _ _)
    (fun _ => surfaces_bind (surfaces_nodeCall _ _) fun _ => surfaces_bind (surfaces_libCall _ _) fun _ => surfaces_pure _) s

theorem approve_first_call (env : Env N) (spender value password : JSValue) (s : World N) :
    ∃ o rest, (approve env spender value password s).2.trace =
      s.trace ++ ⟨.deterministicWallet password env.APP_SEED, o⟩ :: rest := by
  unfold approve
  rw [Eff.tryCatch_rethrow]
  exact first_call (logs_deriver _ _ _)
    (fun _ => surfaces_bind (surfaces_map _ (surfaces_readAccount _)) fun _ =>
      surfaces_bind (surfaces_map _ (surfaces_readAccount _)) fun _ =>
      surfaces_bind (surfaces_libCall _ _) fun _ =>
      surfaces_bind (surfaces_evalPure _) fun _ =>
      surfaces_bind (surfaces_libCall _ _) fun _ =>
      surfaces_bind (surfaces_libCall _ _) fun _ =>
      surfaces_bind (surfaces_nodeCall _ _) fun _ =>
      surfaces_bind (surfaces_nodeCall _ _) fun _ =>
      surfaces_bind (surfaces_nodeCall _ _) fun _ =>
      surfaces_bind (surfaces_nodeCall _ _) fun _ =>
      surfaces_bind (surfaces_consoleLog _) fun _ => surfaces_pure _) s

/-! ### One step of a run -/

theorem deriver_ok_then (env : Env N) (password : JSValue) (seed : Option JSString)
    (f : Unit → Eff N α) (s : World N) (w : Wallet)
    (hd : env.deterministicWallet password seed s.wallet = .ok w) :
    (callDeterministicWallet env password seed >>= f) s =
      f () { wallet := w, node := s.node, console := s.console,
             trace := s.trace ++ [⟨.deterministicWallet password seed, none⟩] } := by
  rw [Eff.bind_run]
  unfold callDeterministicWallet
  rw [hd]

theorem readAccount_some_then {β : Type} (prop : String) (g : Account → β) (f : β → Eff N α)
    (s : World N) (acct : Account) (h : s.wallet.account = some acct) :
    ((g <$> readAccount prop) >>= f) s = f (g acct) s := by
  rw [Eff.bind_run, Eff.map_run]
  unfold readAccount
  rw [h]

theorem readAccount_none_then {β : Type} (prop : String) (g : Account → β) (f : β → Eff N α)
    (s : World N) (h : s.wallet.account = none) :
    ((g <$> readAccount prop) >>= f) s = (.error (cannotReadProperty prop), s) := by
  rw [Eff.bind_run, Eff.map_run]
  unfold readAccount
  rw [h]

theorem libCall_ok_then {β : Type} (c : Call) (r : Except JSError β) (a : β) (hr : r = .ok a)
    (f : β → Eff N α) (w : Wallet) (n : N) (t : List Event) (cs : List ConsoleEntry) :
    (libCall c r >>= f) ⟨w, n, t, cs⟩ = f a ⟨w, n, t ++ [⟨c, none⟩], cs⟩ := by
  rw [Eff.bind_run, libCall_run, hr]

theorem evalPure_ok_then {β : Type} (r : Except JSError β) (a : β) (hr : r = .ok a)
    (f : β → Eff N α) (s : World N) : (evalPure r >>= f) s = f a s := by
  rw [Eff.bind_run, evalPure_run, hr]

theorem nodeCall_ok_then {β : Type} (c : Call) (g : N → Except JSError β × N) (a : β)
    (n0 n : N) (hr : g n0 = (.ok a, n)) (f : β → Eff N α) (w : Wallet) (t : List Event)
    (cs : List ConsoleEntry) :
    (nodeCall c g >>= f) ⟨w, n0, t, cs⟩ = f a ⟨w, n, t ++ [⟨c, none⟩], cs⟩ := by
  rw [Eff.bind_run, nodeCall_run]
  simp only [hr]

theorem consoleLog_then (entry : ConsoleEntry) (f : Unit → Eff N α) (w : Wallet) (n : N)
    (t : List Event) (cs : List ConsoleEntry) :
    (consoleLog entry >>= f) ⟨w, n, t, cs⟩ = f () ⟨w, n, t, cs ++ [entry]⟩ := by
  rw [Eff.bind_run, consoleLog_run]

/-! ### What a run leaves in the wallet and on the console -/

theorem quiet_libCall (c : Call) (r : Except JSError α) : Eff.Quiet (libCall c r : Eff N α) := by
  intro s
  cases r <;> exact ⟨rfl, rfl⟩

theorem quiet_evalPure (r : Except JSError α) : Eff.Quiet (evalPure r : Eff N α) :=
  fun _ => ⟨rfl, rfl⟩

theorem quiet_nodeCall (c : Call) (f : N → Except JSError α × N) :
    Eff.Quiet (nodeCall c f : Eff N α) := by
  intro s
  rw [nodeCall_run]
  rcases h : f s.node with ⟨e | a, n⟩ <;> exact ⟨rfl, rfl⟩

theorem logsAtMost_bind {β : Type} (entry : ConsoleEntry) {m : Eff N α} {f : α → Eff N β}
    (hm : Eff.Quiet m) (hf : ∀ a, Eff.LogsAtMost entry (f a)) :
    Eff.LogsAtMost entry (m >>= f) := by
  intro s
  obtain ⟨hw, hc⟩ := hm s
  rw [Eff.bind_run]
  rcases hms : m s with ⟨e | a, s1⟩
  · rw [hms] at hw hc
    exact ⟨hw, Or.inl hc⟩
  · rw [hms] at hw hc
    obtain ⟨hw2, hc2⟩ := hf a s1
    simp only at hw hc ⊢
    rw [hw] at hw2
    rw [hc] at hc2
    exact ⟨hw2, hc2⟩

theorem logsAtMost_log_return (entry : ConsoleEntry) (a : α) :
    Eff.LogsAtMost entry (consoleLog entry >>= fun _ => (Pure.pure a : Eff N α)) := by
  intro s
  obtain ⟨w, n, t, cs⟩ := s
  rw [consoleLog_then, Eff.pure_run]
  exact ⟨rfl, Or.inr rfl⟩

end Failures

/-! ## The approval pipeline -/

section Pipeline
variable {N : Type}

/-- C4: when the derivation, the library calls and the node calls all succeed,
`approve` returns exactly the receipt the broadcast returned for the raw
transaction that signing produced, with the derived private key, from the
request `{to: contractAddress, data: encodeABI(spender, toWei(value)), from:
owner, gas: estimateGas as owner, gasPrice: getGasPrice}`; these calls, in
this order, are the calls it made. -/
theorem approve_returns_broadcast_receipt (env : Env N) (spender value password : JSValue)
    (s : World N) (w : Wallet) (acct : Account) (valueString : JSString) (valueInWei : Int)
    (txData gas gasPrice receipt : JSValue) (signedTx : SignedTx) (n1 n2 n3 n4 : N)
    (hderive : env.deterministicWallet password env.APP_SEED s.wallet = .ok w)
    (haccount : w.account = some acct)
    (hcontract : env.newContract = .ok ())
    (hstring : valueToString env value = .ok valueString)
    (hwei : env.toWei valueString = .ok valueInWei)
    (hdata : env.encodeABI spender valueInWei = .ok txData)
    (hgas : env.estimateGas spender valueInWei acct.address s.node = (.ok gas, n1))
    (hprice : env.getGasPrice n1 = (.ok gasPrice, n2))
    (hsign : env.signTransaction
      { to_ := env.contractAddress, data := txData, from_ := acct.address, gas := gas,
        gasPrice := gasPrice } acct.privateKey n2 = (.ok signedTx, n3))
    (hsend : env.sendSignedTransaction signedTx.rawTransaction n3 = (.ok receipt, n4)) :
    (approve env spender value password s).1 = .ok receipt ∧
    (approve env spender value password s).2.trace = s.trace ++
      [⟨.deterministicWallet password env.APP_SEED, none⟩,
       ⟨.newContract, none⟩,
       ⟨.toWei valueString, none⟩,
       ⟨.encodeABI spender valueInWei, none⟩,
       ⟨.estimateGas spender valueInWei acct.address, none⟩,
       ⟨.getGasPrice, none⟩,
       ⟨.signTransaction
          { to_ := env.contractAddress, data := txData, from_ := acct.address, gas := gas,
            gasPrice := gasPrice } acct.privateKey, none⟩,
       ⟨.sendSignedTransaction signedTx.rawTransaction, none⟩] := by
  unfold approve
  rw [Eff.tryCatch_rethrow, deriver_ok_then _ _ _ _ _ _ hderive,
    readAccount_some_then _ _ _ _ acct haccount, readAccount_some_then _ _ _ _ acct haccount,
    libCall_ok_then _ _ _ hcontract, evalPure_ok_then _ _ hstring, libCall_ok_then _ _ _ hwei,
    libCall_ok_then _ _ _ hdata, nodeCall_ok_then _ _ _ _ _ hgas,
    nodeCall_ok_then _ _ _ _ _ hprice, nodeCall_ok_then _ _ _ _ _ hsign,
    nodeCall_ok_then _ _ _ _ _ hsend, consoleLog_then, Eff.pure_run]
  refine ⟨rfl, ?_⟩
  simp only [List.append_assoc, List.singleton_append, List.cons_append, List.nil_append]

theorem approve_returns_broadcast_receipt_witness :
    (approve fixtureEnv (.string sampleAddress) (.number (.finite 1000)) (.string (js "pw"))
      startWorld).1 =
    .ok (.object [("status", .boolean true), ("raw", .array [.string (js "signed"),
      .array [.string (js "approve"), .string sampleAddress,
        .bigint 1000000000000000000000]])]) :=
  (approve_returns_broadcast_receipt fixtureEnv (.string sampleAddress) (.number (.finite 1000))
    (.string (js "pw")) startWorld ⟨some ⟨js "0xseed:pw", js "seed:pw"⟩⟩
    ⟨js "0xseed:pw", js "seed:pw"⟩ (js "1000") 1000000000000000000000
    (.array [.string (js "approve"), .string sampleAddress, .bigint 1000000000000000000000])
    (.number (.finite 50000)) (.number (.finite 7)) _
    ⟨.array [.string (js "signed"),
      .array [.string (js "approve"), .string sampleAddress, .bigint 1000000000000000000000]]⟩
    1 2 2 3 rfl rfl rfl rfl rfl rfl rfl rfl rfl rfl).1

/-- C7, as the code has it: once the derivation has succeeded, every exit path
of `approve` leaves in the shared `Wallet` object what the deriver stored
there, and the console gains nothing or the one message built from `value`,
`spender` and the address of the derived account. -/
theorem approve_keeps_derived_account (env : Env N) (spender value password : JSValue)
    (s : World N) (w : Wallet)
    (hderive : env.deterministicWallet password env.APP_SEED s.wallet = .ok w) :
    (approve env spender value password s).2.wallet = w ∧
    ((approve env spender value password s).2.console = s.console ∨
      ∃ acct, w.account = some acct ∧
        (approve env spender value password s).2.console =
          s.console ++ [.approved value spender acct.address]) := by
  unfold approve
  rw [Eff.tryCatch_rethrow, deriver_ok_then _ _ _ _ _ _ hderive]
  rcases haccount : w.account with _ | acct
  · rw [readAccount_none_then _ _ _ _ haccount]
    exact ⟨rfl, Or.inl rfl⟩
  · rw [readAccount_some_then _ _ _ _ acct haccount, readAccount_some_then _ _ _ _ acct haccount]
    refine (fun h => ⟨h.1, h.2.imp id (fun hc => ⟨acct, rfl, hc⟩)⟩)
      ((logsAtMost_bind (.approved value spender acct.address) (quiet_libCall _ _) fun _ =>
        logsAtMost_bind _ (quiet_evalPure _) fun _ =>
        logsAtMost_bind _ (quiet_libCall _ _) fun _ =>
        logsAtMost_bind _ (quiet_libCall _ _) fun _ =>
        logsAtMost_bind _ (quiet_nodeCall _ _) fun _ =>
        logsAtMost_bind _ (quiet_nodeCall _ _) fun _ =>
        logsAtMost_bind _ (quiet_nodeCall _ _) fun _ =>
        logsAtMost_bind _ (quiet_nodeCall _ _) fun _ => logsAtMost_log_return _ _) _)

theorem approve_keeps_derived_account_witness :
    (approve fixtureEnv (.string sampleAddress) (.number (.finite 1000)) (.string (js "pw"))
      startWorld).2.wallet = ⟨some ⟨js "0xseed:pw", js "seed:pw"⟩⟩ ∧
    ((approve fixtureEnv (.string sampleAddress) (.number (.finite 1000)) (.string (js "pw"))
        startWorld).2.console = startWorld.console ∨
      ∃ acct, (⟨some ⟨js "0xseed:pw", js "seed:pw"⟩⟩ : Wallet).account = some acct ∧
        (approve fixtureEnv (.string sampleAddress) (.number (.finite 1000)) (.string (js "pw"))
          startWorld).2.console =
          startWorld.console ++
            [.approved (.number (.finite 1000)) (.string sampleAddress) acct.address]) :=
  approve_keeps_derived_account fixtureEnv (.string sampleAddress) (.number (.finite 1000))
    (.string (js "pw")) startWorld ⟨some ⟨js "0xseed:pw", js "seed:pw"⟩⟩ rfl

/-- C7 fails on the code: after `approve` has returned its receipt, and also
after it has failed on an unreachable node, the `account` field of the shared
`Wallet` object still holds the private key derived for that call. -/
theorem approve_private_key_outlives_call :
    derive fixtureKdf fixtureAddressOf (js "pw") (js "seed") startWorld.wallet =
      some ⟨js "0xseed:pw", js "seed:pw"⟩ ∧
    startWorld.wallet.account = none ∧
    (approve fixtureEnv (.string sampleAddress) (.number (.finite 1000)) (.string (js "pw"))
      startWorld).2.wallet.account = some ⟨js "0xseed:pw", js "seed:pw"⟩ ∧
    (approve gasPriceDownEnv (.string sampleAddress) (.number (.finite 1000)) (.string (js "pw"))
      startWorld).1 = .error ⟨"NetworkError", "node unreachable"⟩ ∧
    (approve gasPriceDownEnv (.string sampleAddress) (.number (.finite 1000)) (.string (js "pw"))
      startWorld).2.wallet.account = some ⟨js "0xseed:pw", js "seed:pw"⟩ :=
  ⟨rfl, rfl, rfl, rfl, rfl⟩

/-- C3 fails on the code: `approve("bad-address", 1000, "pw")` runs the
deriver, which stores an account in the wallet, builds the contract, converts
the value and fails in the ABI encoder with the encoder's own error. -/
theorem approve_bad_address_runs_deriver :
    isValidAddress (.string (js "bad-address")) = .ok false ∧
    (approve fixtureEnv (.string (js "bad-address")) (.number (.finite 1000)) (.string (js "pw"))
      startWorld).1 = .error ⟨"InvalidAddressError", "spender"⟩ ∧
    (approve fixtureEnv (.string (js "bad-address")) (.number (.finite 1000)) (.string (js "pw"))
      startWorld).2.trace =
      [⟨.deterministicWallet (.string (js "pw")) (some (js "seed")), none⟩,
       ⟨.newContract, none⟩,
       ⟨.toWei (js "1000"), none⟩,
       ⟨.encodeABI (.string (js "bad-address")) 1000000000000000000000,
         some ⟨"InvalidAddressError", "spender"⟩⟩] ∧
    (approve fixtureEnv (.string (js "bad-address")) (.number (.finite 1000)) (.string (js "pw"))
      startWorld).2.wallet.account = some ⟨js "0xseed:pw", js "seed:pw"⟩ :=
  ⟨rfl, rfl, rfl, rfl⟩

/-- C3, as the code has it: `approve` validates nothing itself, the first thing
every call does is to run the deriver; the gate is in the SetApprove handler,
which answers 400 and leaves the world as it was, so that it has called
neither the deriver nor the node, when the spender string fails
`isValidAddress` or the value fails `isValidValue`. -/
theorem approve_gate_is_in_handler (env : Env N) (s : World N) (spender : JSString)
    (value password : JSValue)
    (hinvalid : isValidAddress (.string spender) = .ok false ∨ isValidValue value = false) :
    (∃ o rest, (approve env (.string spender) value password s).2.trace =
      s.trace ++ ⟨.deterministicWallet password env.APP_SEED, o⟩ :: rest) ∧
    ∃ msg, SetApprove env (approveBody (.string spender) value password) s =
      (.ok ⟨400, errorBody msg⟩, s) := by
  refine ⟨approve_first_call env _ value password s, ?_⟩
  obtain ⟨b, hb, -⟩ := isValidAddress_string_spec spender
  cases b with
  | false => exact ⟨_, SetApprove_invalid_spender env s spender value password hb⟩
  | true =>
    rcases hinvalid with h | h
    · rw [hb] at h
      cases h
    · exact ⟨_, SetApprove_invalid_value env s spender value password hb h⟩

theorem approve_gate_is_in_handler_witness :
    (∃ o rest, (approve fixtureEnv (.string (js "bad-address")) (.number (.finite 1000))
        (.string (js "pw")) startWorld).2.trace =
      startWorld.trace ++ ⟨.deterministicWallet (.string (js "pw")) fixtureEnv.APP_SEED, o⟩ :: rest) ∧
    ∃ msg, SetApprove fixtureEnv
        (approveBody (.string (js "bad-address")) (.number (.finite 1000)) (.string (js "pw")))
        startWorld =
      (.ok ⟨400, errorBody msg⟩, startWorld) :=
  approve_gate_is_in_handler fixtureEnv startWorld (js "bad-address") (.number (.finite 1000))
    (.string (js "pw")) (Or.inl rfl)

/-- C8: in `balanceOf`, `allowanceOf` and `approve`, a call that fails with
`e` is the last call the operation makes, and the operation fails with `e`
itself: `catch (error) { throw error }` passes the cause on unchanged. -/
theorem operations_surface_failures (env : Env N) (s : World N) :
    (∀ address, ∃ new, (balanceOf env address s).2.trace = s.trace ++ new ∧
      FailureSurfaces new (balanceOf env address s).1) ∧
    (∀ owner spender, ∃ new, (allowanceOf env owner spender s).2.trace = s.trace ++ new ∧
      FailureSurfaces new (allowanceOf env owner spender s).1) ∧
    (∀ spender value password, ∃ new,
      (approve env spender value password s).2.trace = s.trace ++ new ∧
      FailureSurfaces new (approve env spender value password s).1) := by
  refine ⟨fun address => ?_, fun owner spender => ?_, fun spender value password => ?_⟩
  · obtain ⟨new, h1, h2⟩ := balanceOf_surfaces env address s
    exact ⟨new, h1, failsLast_surfaces h2⟩
  · obtain ⟨new, h1, h2⟩ := allowanceOf_surfaces env owner spender s
    exact ⟨new, h1, failsLast_surfaces h2⟩
  · obtain ⟨new, h1, h2⟩ := approve_surfaces env spender value password s
    exact ⟨new, h1, failsLast_surfaces h2⟩

theorem operations_surface_failures_witness :
    gasPriceDownEnv.getGasPrice 1 = (.error ⟨"NetworkError", "node unreachable"⟩, 1) ∧
    (approve gasPriceDownEnv (.string sampleAddress) (.number (.finite 1000)) (.string (js "pw"))
      startWorld).2.trace.length = 6 ∧
    (approve gasPriceDownEnv (.string sampleAddress) (.number (.finite 1000)) (.string (js "pw"))
      startWorld).1 = .error ⟨"NetworkError", "node unreachable"⟩ := by
  refine ⟨rfl, rfl, ?_⟩
  obtain ⟨new, hnew, hs⟩ := (operations_surface_failures gasPriceDownEnv startWorld).2.2
    (.string sampleAddress) (.number (.finite 1000)) (.string (js "pw"))
  have hnil : startWorld.trace ++ new = new := rfl
  rw [hnil] at hnew
  subst hnew
  exact (hs 5 ⟨.getGasPrice, some ⟨"NetworkError", "node unreachable"⟩⟩ _ rfl rfl).2

end Pipeline

/-! ## The handlers -/

section Handlers
variable {N : Type}

theorem GetAllowance_invalid_owner (env : Env N) (s : World N) (owner spender : JSValue)
    (h : isValidAddress owner = .ok false) :
    GetAllowance env owner spender s = (.ok ⟨400, errorBody "Invalid owner address"⟩, s) := by
  simp [GetAllowance, h]

theorem GetAllowance_invalid_spender (env : Env N) (s : World N) (owner spender : JSValue)
    (h : isValidAddress owner = .ok true) (hs : isValidAddress spender = .ok false) :
    GetAllowance env owner spender s = (.ok ⟨400, errorBody "Invalid spender address"⟩, s) := by
  simp [GetAllowance, h, hs]

theorem GetBalance_invalid_address (env : Env N) (s : World N) (address : JSValue)
    (h : isValidAddress address = .ok false) :
    GetBalance env address s = (.ok ⟨400, errorBody "Invalid address"⟩, s) := by
  simp [GetBalance, h]

/-- C9: each handler answers 400 with its message and leaves the world as it
was when a string parameter fails `isValidAddress`, or when the value fails
`isValidValue`; the owner is checked before the spender and the spender before
the value.  An invocation of `balanceOf`, `allowanceOf` or `approve` always
adds its first call to the call log, so none of them was invoked. -/
theorem handlers_reject_before_any_call (env : Env N) (s : World N) :
    (∀ owner spender : JSString, isValidAddress (.string owner) = .ok false →
      GetAllowance env (.string owner) (.string spender) s =
        (.ok ⟨400, [("error", .string (js "Invalid owner address"))]⟩, s)) ∧
    (∀ owner spender : JSString, isValidAddress (.string owner) = .ok true →
      isValidAddress (.string spender) = .ok false →
      GetAllowance env (.string owner) (.string spender) s =
        (.ok ⟨400, [("error", .string (js "Invalid spender address"))]⟩, s)) ∧
    (∀ address : JSString, isValidAddress (.string address) = .ok false →
      GetBalance env (.string address) s =
        (.ok ⟨400, [("error", .string (js "Invalid address"))]⟩, s)) ∧
    (∀ (spender : JSString) (value password : JSValue),
      isValidAddress (.string spender) = .ok false →
      SetApprove env (approveBody (.string spender) value password) s =
        (.ok ⟨400, [("error", .string (js "Invalid spender address"))]⟩, s)) ∧
    (∀ (spender : JSString) (value password : JSValue),
      isValidAddress (.string spender) = .ok true → isValidValue value = false →
      SetApprove env (approveBody (.string spender) value password) s =
        (.ok ⟨400, [("error", .string (js "Invalid value"))]⟩, s)) ∧
    (∀ address (s0 : World N), ∃ o rest,
      (balanceOf env address s0).2.trace = s0.trace ++ ⟨.getBalance address, o⟩ :: rest) ∧
    (∀ owner spender (s0 : World N), ∃ o rest,
      (allowanceOf env owner spender s0).2.trace = s0.trace ++ ⟨.newContract, o⟩ :: rest) ∧
    (∀ spender value password (s0 : World N), ∃ o rest,
      (approve env spender value password s0).2.trace =
        s0.trace ++ ⟨.deterministicWallet password env.APP_SEED, o⟩ :: rest) :=
  ⟨fun _ _ h => GetAllowance_invalid_owner env s _ _ h,
   fun _ _ h hs => GetAllowance_invalid_spender env s _ _ h hs,
   fun _ h => GetBalance_invalid_address env s _ h,
   fun spender value password h => SetApprove_invalid_spender env s spender value password h,
   fun spender value password h hv => SetApprove_invalid_value env s spender value password h hv,
   fun address s0 => balanceOf_first_call env address s0,
   fun owner spender s0 => allowanceOf_first_call env owner spender s0,
   fun spender value password s0 => approve_first_call env spender value password s0⟩

theorem handlers_reject_before_any_call_witness :
    GetAllowance fixtureEnv (.string (js "0x123")) (.string sampleAddress) startWorld =
      (.ok ⟨400, [("error", .string (js "Invalid owner address"))]⟩, startWorld) ∧
    GetAllowance fixtureEnv (.string sampleAddress) (.string (js "")) startWorld =
      (.ok ⟨400, [("error", .string (js "Invalid spender address"))]⟩, startWorld) ∧
    GetBalance fixtureEnv (.string (js "0x123")) startWorld =
      (.ok ⟨400, [("error", .string (js "Invalid address"))]⟩, startWorld) ∧
    SetApprove fixtureEnv
        (approveBody (.string (js "0x123")) (.number (.finite 1000)) (.string (js "pw")))
        startWorld =
      (.ok ⟨400, [("error", .string (js "Invalid spender address"))]⟩, startWorld) ∧
    SetApprove fixtureEnv
        (approveBody (.string sampleAddress) (.string (js "1000")) (.string (js "pw")))
        startWorld =
      (.ok ⟨400, [("error", .string (js "Invalid value"))]⟩, startWorld) :=
  ⟨(handlers_reject_before_any_call fixtureEnv startWorld).1 (js "0x123") sampleAddress rfl,
   (handlers_reject_before_any_call fixtureEnv startWorld).2.1 sampleAddress (js "") rfl rfl,
   (handlers_reject_before_any_call fixtureEnv startWorld).2.2.1 (js "0x123") rfl,
   (handlers_reject_before_any_call fixtureEnv startWorld).2.2.2.1 (js "0x123")
     (.number (.finite 1000)) (.string (js "pw")) rfl,
   (handlers_reject_before_any_call fixtureEnv startWorld).2.2.2.2.1 sampleAddress
     (.string (js "1000")) (.string (js "pw")) rfl rfl⟩

/-- C10 fails on the code: `isValidAddress` throws a `TypeError` on `undefined`
and on `null`, and on an array or an object whose `length` is 42; the
SetApprove handler, given a body without a `spender` field, is rejected with
that `TypeError` and sends no response.  On numbers, booleans and BigInts
`isValidAddress` does return `false`. -/
theorem isValidAddress_throws_on_missing_spender (env : Env N) (s : World N) :
    isValidAddress .undefined = .error (cannotReadProperty "length") ∧
    isValidAddress .null = .error (cannotReadProperty "length") ∧
    isValidAddress (.array (List.replicate 42 .null)) =
      .error (notAFunction "address.startsWith") ∧
    isValidAddress (.object [("length", .number (.finite 42))]) =
      .error (notAFunction "address.startsWith") ∧
    (∀ value password : JSValue,
      SetApprove env (.object [("value", value), ("password", password)]) s =
        (.error (cannotReadProperty "length"), s)) ∧
    (∀ n, isValidAddress (.number n) = .ok false) ∧
    (∀ b, isValidAddress (.boolean b) = .ok false) ∧
    (∀ i, isValidAddress (.bigint i) = .ok false) := by
  refine ⟨rfl, rfl, rfl, rfl, fun value password => ?_, fun _ => rfl, fun _ => rfl, fun _ => rfl⟩
  have h1 : destructure (.object [("value", value), ("password", password)]) "spender" =
      .ok .undefined := by
    simp [destructure, List.lookup]
  have h2 : ∃ v, destructure (.object [("value", value), ("password", password)]) "value" =
      .ok v := ⟨_, rfl⟩
  have h3 : ∃ v, destructure (.object [("value", value), ("password", password)]) "password" =
      .ok v := ⟨_, rfl⟩
  obtain ⟨v2, h2⟩ := h2
  obtain ⟨v3, h3⟩ := h3
  have h4 : isValidAddress .undefined = .error (cannotReadProperty "length") := rfl
  simp [SetApprove, h1, h2, h3, h4]

end Handlers

/-! ## The deriver -/

/-- C6: the account read from the wallet after `deterministicWallet(password,
seed)` is a function of the password and the seed alone: whatever the shared
`Wallet` object held before, two derivations from the same secrets give the
same address and the same private key. -/
theorem derive_depends_on_secrets_only (kdf : JSString → JSString → JSString)
    (addressOf : JSString → JSString) (password seed : JSString) (before1 before2 : Wallet) :
    derive kdf addressOf password seed before1 = derive kdf addressOf password seed before2 ∧
    ∃ acct, derive kdf addressOf password seed before1 = some acct ∧
      acct.privateKey = kdf password seed ∧ acct.address = addressOf (kdf password seed) :=
  ⟨rfl, _, rfl, rfl, rfl⟩

/-! ## The unit converter -/

theorem unitDigit_eq_some {u : CodeUnit} {d : Nat} (h : unitDigit u = some d) :
    d < 10 ∧ digitUnit d = u := by
  unfold unitDigit at h
  split at h
  · rename_i hu
    cases h
    refine ⟨by omega, ?_⟩
    unfold digitUnit
    apply Fin.ext
    have hlt : u.val < 65536 := u.isLt
    simp only [Fin.ofNat, Nat.add_sub_cancel' hu.1]
    exact Nat.mod_eq_of_lt hlt
  · cases h

theorem parseDigits_eq_some : ∀ (x : JSString) (ds : List Nat), parseDigits x = some ds →
    renderDigits ds = x ∧ ∀ d ∈ ds, d < 10
  | [], ds, h => by
    unfold parseDigits at h
    cases h
    exact ⟨rfl, by intro d hd; simp at hd⟩
  | u :: us, ds, h => by
    unfold parseDigits at h
    rcases hu : unitDigit u with _ | d
    · rw [hu] at h
      simp at h
    · rcases hus : parseDigits us with _ | ds'
      · rw [hu, hus] at h
        simp at h
      · rw [hu, hus] at h
        simp only [Option.some.injEq] at h
        subst h
        obtain ⟨hr, hlt⟩ := parseDigits_eq_some us ds' hus
        obtain ⟨hd, hdu⟩ := unitDigit_eq_some hu
        refine ⟨?_, ?_⟩
        · simp only [renderDigits, List.map_cons, hdu]
          rw [← hr]
          rfl
        · intro e he
          rcases List.mem_cons.mp he with rfl | he
          · exact hd
          · exact hlt e he

theorem splitAtDot_none : ∀ (x w : JSString), splitAtDot x = (w, none) → x = w
  | [], w, h => by
    unfold splitAtDot at h
    cases h
    rfl
  | u :: us, w, h => by
    unfold splitAtDot at h
    split at h
    · cases h
    · rcases hs : splitAtDot us with ⟨w', f'⟩
      rw [hs] at h
      simp only [Prod.mk.injEq] at h
      obtain ⟨rfl, rfl⟩ := h
      rw [splitAtDot_none us w' hs]

theorem splitAtDot_some : ∀ (x w f : JSString), splitAtDot x = (w, some f) → x = w ++ dot :: f
  | [], w, f, h => by
    unfold splitAtDot at h
    cases h
  | u :: us, w, f, h => by
    unfold splitAtDot at h
    split at h
    · rename_i hu
      simp only [Prod.mk.injEq, Option.some.injEq] at h
      obtain ⟨rfl, rfl⟩ := h
      rw [hu]
      rfl
    · rcases hs : splitAtDot us with ⟨w', f'⟩
      rw [hs] at h
      simp only [Prod.mk.injEq] at h
      obtain ⟨rfl, rfl⟩ := h
      rw [splitAtDot_some us w' f hs]
      rfl

theorem decDigitsFuel_irrelevant : ∀ (f1 f2 n : Nat), n < f1 → n < f2 →
    decDigitsFuel f1 n = decDigitsFuel f2 n
  | 0, _, n, h, _ => by omega
  | _ + 1, 0, n, _, h => by omega
  | f1 + 1, f2 + 1, n, h1, h2 => by
    unfold decDigitsFuel
    by_cases hn : n < 10
    · simp [hn]
    · simp only [hn, if_false]
      rw [decDigitsFuel_irrelevant f1 f2 (n / 10) (by omega) (by omega)]

theorem decDigits_lt {n : Nat} (h : n < 10) : decDigits n = [n] := by
  unfold decDigits decDigitsFuel
  simp [h]

theorem decDigits_ge {n : Nat} (h : 10 ≤ n) : decDigits n = decDigits (n / 10) ++ [n % 10] := by
  have hn : ¬ n < 10 := by omega
  show decDigitsFuel (n + 1) n = decDigitsFuel (n / 10 + 1) (n / 10) ++ [n % 10]
  rw [decDigitsFuel]
  simp only [hn, if_false]
  rw [decDigitsFuel_irrelevant n (n / 10 + 1) (n / 10) (by omega) (by omega)]

theorem foldl_digits (ds : List Nat) : ∀ acc : Nat,
    ds.foldl (fun acc d => 10 * acc + d) acc =
      acc * 10 ^ ds.length + ds.foldl (fun acc d => 10 * acc + d) 0 := by
  induction ds with
  | nil => intro acc; simp
  | cons d ds ih =>
    intro acc
    simp only [List.foldl_cons, List.length_cons]
    rw [ih (10 * acc + d), ih (10 * 0 + d)]
    ring

theorem valueOf_append (a b : List Nat) :
    valueOf (a ++ b) = valueOf a * 10 ^ b.length + valueOf b := by
  unfold valueOf
  rw [List.foldl_append, foldl_digits]

theorem valueOf_snoc (ds : List Nat) (d : Nat) : valueOf (ds ++ [d]) = 10 * valueOf ds + d := by
  rw [valueOf_append]
  simp [valueOf]
  ring

theorem valueOf_replicate_zero (k : Nat) : valueOf (List.replicate k 0) = 0 := by
  induction k with
  | zero => rfl
  | succ k ih =>
    rw [List.replicate_succ']
    rw [valueOf_snoc, ih]

theorem valueOf_zero_cons (ds : List Nat) : valueOf (0 :: ds) = valueOf ds := by
  simp [valueOf]

theorem valueOf_lt (ds : List Nat) (h : ∀ d ∈ ds, d < 10) : valueOf ds < 10 ^ ds.length := by
  induction ds using List.reverseRecOn with
  | nil => simp [valueOf]
  | append_singleton init d ih =>
    have hinit : ∀ e ∈ init, e < 10 := fun e he => h e (List.mem_append_left _ he)
    have hd : d < 10 := h d (by simp)
    have := ih hinit
    rw [valueOf_snoc, List.length_append, List.length_singleton, pow_succ]
    omega

theorem decDigits_valueOf (ds : List Nat) (h : ∀ d ∈ ds, d < 10) (hne : ds ≠ [])
    (hhead : ds.head? ≠ some 0) : decDigits (valueOf ds) = ds ∧ 0 < valueOf ds := by
  induction ds using List.reverseRecOn with
  | nil => exact absurd rfl hne
  | append_singleton init d ih =>
    have hd : d < 10 := h d (by simp)
    rw [valueOf_snoc]
    by_cases hinit : init = []
    · subst hinit
      have hd0 : d ≠ 0 := by
        intro h0
        apply hhead
        simp [h0]
      have hv : 10 * valueOf [] + d = d := by simp [valueOf]
      rw [hv]
      exact ⟨decDigits_lt hd, by omega⟩
    · have hh : init.head? ≠ some 0 := by
        intro h0
        apply hhead
        cases init with
        | nil => exact absurd rfl hinit
        | cons a t => simpa using h0
      obtain ⟨ih1, ih2⟩ := ih (fun e he => h e (List.mem_append_left _ he)) hinit hh
      have hge : 10 ≤ 10 * valueOf init + d := by omega
      have h1 : (10 * valueOf init + d) / 10 = valueOf init := by omega
      have h2 : (10 * valueOf init + d) % 10 = d := by omega
      rw [decDigits_ge hge, h1, h2, ih1]
      exact ⟨rfl, by omega⟩

theorem dropWhile_zero_replicate (k : Nat) (l : List Nat) :
    (List.replicate k 0 ++ l).dropWhile (fun d => d == 0) = l.dropWhile (fun d => d == 0) := by
  induction k with
  | zero => rfl
  | succ k ih =>
    rw [List.replicate_succ, List.cons_append, List.dropWhile_cons]
    simp [ih]

theorem stripTrailingZeros_append (fs : List Nat) (hne : fs ≠ []) (hlast : fs.getLast? ≠ some 0)
    (k : Nat) : stripTrailingZeros (fs ++ List.replicate k 0) = fs := by
  unfold stripTrailingZeros
  rw [List.reverse_append, List.reverse_replicate, dropWhile_zero_replicate]
  induction fs using List.reverseRecOn with
  | nil => exact absurd rfl hne
  | append_singleton init d _ =>
    have hd : d ≠ 0 := by
      intro h0
      apply hlast
      simp [h0]
    rw [List.reverse_append, List.reverse_singleton, List.singleton_append, List.dropWhile_cons]
    simp [hd]

theorem length_le_of_padLeft {n : Nat} {ds l : List Nat} (h : padLeft n ds = l)
    (hl : l.length = n) : ds.length ≤ n := by
  have := congrArg List.length h
  rw [padLeft, List.length_append, List.length_replicate, hl] at this
  omega

theorem padLeft_succ {n : Nat} {ds : List Nat} (h : ds.length ≤ n) :
    padLeft (n + 1) ds = 0 :: padLeft n ds := by
  unfold padLeft
  have : n + 1 - ds.length = (n - ds.length) + 1 := by omega
  rw [this, List.replicate_succ, List.cons_append]

theorem padLeft_self {n : Nat} {ds : List Nat} (h : ds.length = n) : padLeft n ds = ds := by
  unfold padLeft
  rw [h, Nat.sub_self]
  rfl

theorem padded_fraction (fs : List Nat) (h : ∀ d ∈ fs, d < 10) (hne : fs ≠ [])
    (hlast : fs.getLast? ≠ some 0) (k : Nat) :
    padLeft (fs.length + k) (decDigits (valueOf fs * 10 ^ k)) = fs ++ List.replicate k 0 ∧
      0 < valueOf fs := by
  induction fs with
  | nil => exact absurd rfl hne
  | cons d fs ih =>
    by_cases hd0 : d = 0
    · subst hd0
      have hne' : fs ≠ [] := by
        intro h0
        subst h0
        exact hlast rfl
      have hlast' : fs.getLast? ≠ some 0 := by
        intro h0
        apply hlast
        cases fs with
        | nil => exact absurd rfl hne'
        | cons a t => simpa [List.getLast?_cons_cons] using h0
      obtain ⟨ih1, ih2⟩ := ih (fun e he => h e (List.mem_cons_of_mem _ he)) hne' hlast'
      rw [valueOf_zero_cons]
      refine ⟨?_, ih2⟩
      have hlen := length_le_of_padLeft ih1 (by simp)
      have : (0 :: fs).length + k = (fs.length + k) + 1 := by simp; omega
      rw [this, padLeft_succ hlen, ih1]
      rfl
    · have hdig : ∀ e ∈ (d :: fs) ++ List.replicate k 0, e < 10 := by
        intro e he
        rcases List.mem_append.mp he with he | he
        · exact h e he
        · rw [List.eq_of_mem_replicate he]
          omega
      have hhead : ((d :: fs) ++ List.replicate k 0).head? ≠ some 0 := by simpa using hd0
      obtain ⟨h1, _⟩ := decDigits_valueOf _ hdig (by simp) hhead
      have hhead' : (d :: fs).head? ≠ some 0 := by simpa using hd0
      obtain ⟨_, h2⟩ := decDigits_valueOf _ h (by simp) hhead'
      rw [valueOf_append, valueOf_replicate_zero, List.length_replicate, Nat.add_zero] at h1
      rw [h1]
      exact ⟨padLeft_self (by simp; omega), h2⟩

theorem canonicalWhole_spec (w : JSString) (h : canonicalWhole w = true) :
    ∃ ws, parseDigits w = some ws ∧ ws ≠ [] ∧ renderDigits (decDigits (valueOf ws)) = w := by
  unfold canonicalWhole at h
  rcases hp : parseDigits w with _ | ws
  · rw [hp] at h
    cases h
  · rw [hp] at h
    simp only [decide_eq_true_eq] at h
    obtain ⟨hne, hcan⟩ := h
    obtain ⟨hr, hdig⟩ := parseDigits_eq_some w ws hp
    refine ⟨ws, rfl, hne, ?_⟩
    rcases hcan with h0 | hh
    · subst h0
      rw [← hr]
      rfl
    · rw [(decDigits_valueOf ws hdig hne hh).1, hr]

theorem canonicalFraction_spec (f : JSString) (h : canonicalFraction f = true) :
    ∃ fs, parseDigits f = some fs ∧ fs ≠ [] ∧ fs.length ≤ 18 ∧
      0 < valueOf fs * 10 ^ (18 - fs.length) ∧
      valueOf fs * 10 ^ (18 - fs.length) < weiPerEther ∧
      renderDigits (stripTrailingZeros
        (padLeft 18 (decDigits (valueOf fs * 10 ^ (18 - fs.length))))) = f := by
  unfold canonicalFraction at h
  rcases hp : parseDigits f with _ | fs
  · rw [hp] at h
    cases h
  · rw [hp] at h
    simp only [decide_eq_true_eq] at h
    obtain ⟨hne, hlen, hlast⟩ := h
    obtain ⟨hr, hdig⟩ := parseDigits_eq_some f fs hp
    obtain ⟨hpad, hpos⟩ := padded_fraction fs hdig hne hlast (18 - fs.length)
    have h18 : fs.length + (18 - fs.length) = 18 := by omega
    rw [h18] at hpad
    refine ⟨fs, rfl, hne, hlen, Nat.mul_pos hpos (Nat.pos_pow_of_pos _ (by omega)), ?_, ?_⟩
    · have hlt := valueOf_lt fs hdig
      have hpow : (10 : Nat) ^ fs.length * 10 ^ (18 - fs.length) = 10 ^ 18 := by
        rw [← pow_add, h18]
      show valueOf fs * 10 ^ (18 - fs.length) < 10 ^ 18
      rw [← hpow]
      exact Nat.mul_lt_mul_of_pos_right hlt (Nat.pos_pow_of_pos _ (by omega))
    · rw [hpad, stripTrailingZeros_append fs hne hlast, hr]

theorem toDisplay_natCast (m : Nat) :
    toDisplay (m : Int) =
      if m % weiPerEther = 0 then .ok (renderDigits (decDigits (m / weiPerEther)))
      else .ok (renderDigits (decDigits (m / weiPerEther)) ++
        dot :: renderDigits (stripTrailingZeros (padLeft 18 (decDigits (m % weiPerEther))))) := by
  unfold toDisplay
  have hnn : ¬ ((m : Int) < 0) := by omega
  simp only [hnn, if_false, Int.toNat_ofNat]

theorem weiPerEther_pos : 0 < weiPerEther := by
  unfold weiPerEther
  exact Nat.pos_pow_of_pos _ (by omega)

/-- C5, as the converter has it: the round trip through base units gives back
exactly the string `x` when `x` is in canonical form, that is a whole part
without a superfluous leading zero and, after a point, one to 18 digits of
which the last is not zero. -/
theorem toDisplay_toBase_canonical (x : JSString) (h : isCanonicalDecimal x = true) :
    ∃ n, toBase x = .ok n ∧ toDisplay n = .ok x := by
  unfold isCanonicalDecimal at h
  rcases hs : splitAtDot x with ⟨w, _ | f⟩
  · rw [hs] at h
    simp only at h
    obtain ⟨ws, hp, hne, hrender⟩ := canonicalWhole_spec w h
    have hx : x = w := splitAtDot_none x w hs
    refine ⟨((valueOf ws * weiPerEther : Nat) : Int), ?_, ?_⟩
    · unfold toBase
      rw [hs]
      simp only [hp, hne, if_false]
    · rw [toDisplay_natCast, Nat.mul_mod_left, if_pos rfl,
        Nat.mul_div_cancel _ weiPerEther_pos, hrender, hx]
  · rw [hs] at h
    simp only [Bool.and_eq_true] at h
    obtain ⟨ws, hp, hne, hrender⟩ := canonicalWhole_spec w h.1
    obtain ⟨fs, hpf, hnef, hlen, hpos, hlt, hrenderf⟩ := canonicalFraction_spec f h.2
    have hx : x = w ++ dot :: f := splitAtDot_some x w f hs
    refine ⟨((valueOf ws * weiPerEther + valueOf fs * 10 ^ (18 - fs.length) : Nat) : Int),
      ?_, ?_⟩
    · unfold toBase
      rw [hs]
      have hlen' : ¬ 18 < fs.length := by omega
      simp only [hp, hpf, hne, hnef, hlen', or_self, if_false]
    · have hmod : (valueOf ws * weiPerEther + valueOf fs * 10 ^ (18 - fs.length)) % weiPerEther
          = valueOf fs * 10 ^ (18 - fs.length) := by
        rw [Nat.add_comm, Nat.add_mul_mod_self_right]
        exact Nat.mod_eq_of_lt hlt
      have hdiv : (valueOf ws * weiPerEther + valueOf fs * 10 ^ (18 - fs.length)) / weiPerEther
          = valueOf ws := by
        rw [Nat.add_comm, Nat.add_mul_div_right _ _ weiPerEther_pos, Nat.div_eq_of_lt hlt,
          Nat.zero_add]
      have hne0 : ¬ valueOf fs * 10 ^ (18 - fs.length) = 0 := by omega
      rw [toDisplay_natCast, hmod, if_neg hne0, hdiv, hrender, hrenderf, hx]

theorem toDisplay_toBase_canonical_witness :
    isCanonicalDecimal (js "1.5") = true ∧
      ∃ n, toBase (js "1.5") = .ok n ∧ toDisplay n = .ok (js "1.5") :=
  ⟨rfl, toDisplay_toBase_canonical (js "1.5") rfl⟩

/-- C5 fails on the converter: `1.50` is a valid decimal string with two
fractional digits, it is the same amount of base units as `1.5`, and the
round trip writes it back as `1.5`. -/
theorem toDisplay_toBase_drops_trailing_zero :
    toBase (js "1.50") = .ok 1500000000000000000 ∧
    fractionalDigits (js "1.50") = 2 ∧
    toDisplay 1500000000000000000 = .ok (js "1.5") ∧
    js "1.5" ≠ js "1.50" :=
  ⟨rfl, rfl, rfl, by decide⟩

end ChessHub
